import Mathlib

/-!
# Verification of the ZocoPOS launcher updater (`src/updater.py`)

This file is a shallow embedding of the install/update engine in
`src/updater.py`.  File contents are modelled as `String`s; filesystem
state relevant to the updater is a `FS` record.  Fallible operating-system
calls (`os.remove`, `shutil.copy2`, `shutil.move`, `os.rename`, network
download, writing the version file) are driven by an explicit `Env` of
failure switches, one per `try`-protected call site in the source; a Python
function that may raise is modelled as returning `FS × PyR`, where `PyR`
is either a returned Boolean or a propagated exception.  The backup
routines and `_restore_backup` swallow their own exceptions, so their
failure modes are part of the state transition rather than of `PyR`: a
backup's swallowed exception can strike before the copy or mid-rotation
(`BackupFail`), and the restore's swallowed failure (`restoreFails`)
leaves the executable unrestored.

The SHA-256 digest itself is a library call (`hashlib.sha256`) and is
abstracted as a parameter `h : String → String` giving the (lowercase)
hex digest of a content; `calculate_sha256` applies `.toUpper` to it
exactly as the source does.

Directory modelling: `BACKUP_DIR` only ever receives files named
`ZocoPOS_backup_<epoch>.exe` written by `_backup_current`, so it is
modelled as the list of those entries (name, content); the
`startswith/endswith` filter in the source is the identity on this
directory.  Likewise the data-backup listing of `APP_DATA_DIR` filtered by
`zocopos_local_backup_*.db` is modelled as the `dbBackups` list, with the
live database file kept separately in `dbFile`.
-/

/-- State of the persisted version file `version.json`, covering every way
the file can be on disk: absent, present but unreadable, readable but not
JSON, valid JSON without a `"version"` key, or a well-formed record. -/
inductive VFile
  | absent
  | unreadable
  | invalidJson
  | noVersionKey
  | record (version : String) (sha256 : String) (source : String) (installed_at : String)
deriving DecidableEq

/-- Filesystem state touched by the updater: the canonical executable
`APP_EXE`, the rename-aside file `APP_EXE + ".old"`, the version file,
the staged download `UPDATE_DIR/ZocoPOS_new.exe`, the binary backup
directory, the data-backup entries, the live database, and the local-mode
source file `LOCAL_SOURCE_DIR/ZocoPOS.exe`.  A `none` means the file does
not exist; a `some c` means it exists with content `c`. -/
structure FS where
  appExe : Option String
  appExeOld : Option String
  versionFile : VFile
  staged : Option String
  binBackups : List (String × String)
  dbBackups : List (String × String)
  dbFile : Option String
  localSource : Option String
deriving DecidableEq

/-- Where the swallowed exception of a backup try-block
(`_backup_current` / `_backup_database`) strikes, if anywhere:
`ok` — the whole try completes; `atCopy` — `shutil.copy2` raises before
the new entry lands, so the directory is unchanged; `atRemove k` — the
exception strikes after the copy, once `k` of the rotation's removals have
completed (`k = 0` covers a failure at `os.listdir`, the sort, or the
first `os.remove`): the new entry was added but the rotation was cut
short. -/
inductive BackupFail
  | ok
  | atCopy
  | atRemove (k : Nat)
deriving DecidableEq

/-- Per-run environment of failure injections, one switch per fallible
call in the source, plus the content the remote server would serve. -/
structure Env where
  binBackupFail : BackupFail
  dbBackupFail : BackupFail
  downloadFails : Bool
  remoteContent : String
  brokenContent : String
  removeFails1 : Bool
  removePermission : Bool
  removeFails2 : Bool
  renameFails : Bool
  copyFails : Bool
  moveFails : Bool
  writeVersionFails : Bool
  restoreFails : Bool
deriving DecidableEq

/-- The environment in which every injected operation succeeds. -/
def idealEnv : Env :=
  ⟨BackupFail.ok, BackupFail.ok, false, "", "", false, true, false, false, false, false,
    false, false⟩

/-- Exception kinds propagated by the modelled calls. -/
inductive Exn
  | download
  | remove
  | rename
  | copy
  | move
  | writeVersion
deriving DecidableEq

/-- Outcome of a Python function that returns a Bool or raises. -/
inductive PyR
  | ret (b : Bool)
  | exn (e : Exn)
deriving DecidableEq

/-- The release dictionary built by `_fetch_local_release` /
`_fetch_github_release`; optional keys are read with `dict.get`. -/
structure RemoteInfo where
  version : Option String
  download_url : Option String
  sha256 : Option String
  size_mb : String
  release_notes : String
deriving DecidableEq

/-- Python `str.upper()` on the ASCII range (the range exercised here: hex
digests and filenames): uppercase every character.  `Char.toUpper` is the
same ASCII mapping; it is applied over the string's character data directly
so that the function evaluates by kernel reduction. -/
def strUpper (s : String) : String :=
  ⟨s.data.map Char.toUpper⟩

/-- `calculate_sha256` (updater.py:94-100): streams the file through
`hashlib.sha256` — abstracted as `h` — and returns `hexdigest().upper()`. -/
def calculate_sha256 (h : String → String) (content : String) : String :=
  strUpper (h content)

/-- `get_local_version` (updater.py:77-86): read `version.json`; on any
failure (missing file, read error, bad JSON) or missing `"version"` key,
return `"0.0.0"`. -/
def get_local_version : VFile → String
  | .absent => "0.0.0"
  | .unreadable => "0.0.0"
  | .invalidJson => "0.0.0"
  | .noVersionKey => "0.0.0"
  | .record v _ _ _ => v

/-- Python truthiness test `if expected_sha:` on an optional string. -/
def strTruthy : Option String → Bool
  | none => false
  | some s => !(s == "")

/-- Python `a or b` for an optional string `a` and string `b`
(`expected_sha or calculate_sha256(APP_EXE)` in the source). -/
def pyOrStr (a : Option String) (b : String) : String :=
  match a with
  | some s => if s == "" then b else s
  | none => b

/-- Lexicographic `≤` on character lists by code point — the order Python
uses to compare strings (structural, so it evaluates by kernel
reduction). -/
def listCharLe : List Char → List Char → Bool
  | [], _ => true
  | _ :: _, [] => false
  | a :: as, b :: bs => if a < b then true else if a = b then listCharLe as bs else false

/-- Lexicographic `<` on character lists by code point. -/
def listCharLt : List Char → List Char → Bool
  | [], [] => false
  | [], _ :: _ => true
  | _ :: _, [] => false
  | a :: as, b :: bs => if a < b then true else if a = b then listCharLt as bs else false

/-- Python string `≤` (lexicographic by code point), used as the sort key
of `sorted` over `os.listdir`. -/
def nameLe (a b : String) : Bool := listCharLe a.data b.data

/-- Python string `<` (lexicographic by code point). -/
def nameLt (a b : String) : Bool := listCharLt a.data b.data

/-- Ordering of backup-directory entries by filename, the key used by
Python's `sorted` over `os.listdir`. -/
def entLE (a b : String × String) : Prop := nameLe a.1 b.1 = true

instance : DecidableRel entLE := fun a b => instDecidableEqBool (nameLe a.1 b.1) true

theorem listCharLe_total : ∀ a b, listCharLe a b = true ∨ listCharLe b a = true
  | [], _ => Or.inl rfl
  | _ :: _, [] => Or.inr rfl
  | x :: xs, y :: ys => by
    rcases lt_trichotomy x y with h | h | h
    · left; simp [listCharLe, h]
    · subst h
      rcases listCharLe_total xs ys with ih | ih
      · left; simp [listCharLe, ih]
      · right; simp [listCharLe, ih]
    · right; simp [listCharLe, h]

theorem listCharLe_trans :
    ∀ a b c, listCharLe a b = true → listCharLe b c = true → listCharLe a c = true
  | [], _, _, _, _ => rfl
  | _ :: _, [], _, hab, _ => by simp [listCharLe] at hab
  | _ :: _, _ :: _, [], _, hbc => by simp [listCharLe] at hbc
  | x :: xs, y :: ys, z :: zs, hab, hbc => by
    simp only [listCharLe] at hab hbc ⊢
    by_cases hxy : x < y
    · by_cases hyz : y < z
      · simp [lt_trans hxy hyz]
      · by_cases hyz' : y = z
        · subst hyz'; simp [hxy]
        · simp [hyz, hyz'] at hbc
    · by_cases hxy' : x = y
      · subst hxy'
        simp [hxy] at hab
        by_cases hyz : x < z
        · simp [hyz]
        · by_cases hyz' : x = z
          · subst hyz'
            simp [hyz] at hbc ⊢
            exact listCharLe_trans xs ys zs hab hbc
          · simp [hyz, hyz'] at hbc
      · simp [hxy, hxy'] at hab

theorem listCharLt_irrefl : ∀ a, listCharLt a a = false
  | [] => rfl
  | x :: xs => by simp [listCharLt, listCharLt_irrefl xs]

theorem listCharLt_le : ∀ a b, listCharLt a b = true → listCharLe a b = true
  | [], [], _ => rfl
  | [], _ :: _, _ => rfl
  | _ :: _, [], h => by simp [listCharLt] at h
  | x :: xs, y :: ys, h => by
    simp only [listCharLt] at h
    simp only [listCharLe]
    by_cases hxy : x < y
    · simp [hxy]
    · by_cases hxy' : x = y
      · subst hxy'
        simp [hxy] at h ⊢
        exact listCharLt_le xs ys h
      · simp [hxy, hxy'] at h

theorem nameLt_le {a b : String} (h : nameLt a b = true) : nameLe a b = true :=
  listCharLt_le a.data b.data h

theorem nameLt_ne {a b : String} (h : nameLt a b = true) : a ≠ b := by
  intro e
  subst e
  rw [nameLt, listCharLt_irrefl] at h
  exact Bool.false_ne_true h

instance : IsTotal (String × String) entLE :=
  ⟨fun a b => listCharLe_total a.1.data b.1.data⟩

instance : IsTrans (String × String) entLE :=
  ⟨fun a b c hab hbc => listCharLe_trans a.1.data b.1.data c.1.data hab hbc⟩

/-- The backup directory listing sorted ascending by filename
(`sorted([...])` in the source). -/
def sortEntries (l : List (String × String)) : List (String × String) :=
  List.insertionSort entLE l

/-- `shutil.copy2` into a directory: overwrite the entry with this name if
present, else add it. -/
def putEntry (l : List (String × String)) (name c : String) : List (String × String) :=
  if l.any (fun p => p.1 == name) then
    l.map (fun p => if p.1 == name then (name, c) else p)
  else l ++ [(name, c)]

/-- The rotation loop `while len(backups) > cap: os.remove(backups.pop(0))`
applied to a directory: sort ascending by name and drop from the front
until at most `cap` entries remain. -/
def rotateKeep (cap : Nat) (l : List (String × String)) : List (String × String) :=
  let s := sortEntries l
  s.drop (s.length - cap)

/-- The same rotation loop cut short by an exception after `k` removals
completed: only `min k (needed)` of the oldest entries are gone.  With
`k` at least the number of pending removals this coincides with
`rotateKeep`. -/
def rotatePartial (cap k : Nat) (l : List (String × String)) : List (String × String) :=
  let s := sortEntries l
  s.drop (min k (s.length - cap))

/-- Binary backup filename `f"ZocoPOS_backup_{int(time.time())}.exe"`. -/
def backupName (epoch : Nat) : String :=
  "ZocoPOS_backup_" ++ toString epoch ++ ".exe"

/-- Data backup filename `f"zocopos_local_backup_{int(time.time())}.db"`. -/
def dbBackupName (epoch : Nat) : String :=
  "zocopos_local_backup_" ++ toString epoch ++ ".db"

/-- `Updater._backup_current` (updater.py:648-661): if `APP_EXE` exists,
copy it into the backup directory under an epoch-stamped name, then sort
the backup names ascending and delete from the front while more than 3
remain.  Any exception inside the `try` is swallowed; depending on where
it strikes (`env.binBackupFail`) the directory is unchanged (`atCopy`),
fully rotated (`ok`), or holds the new entry with the rotation cut short
after `k` removals (`atRemove k`). -/
def backup_current (env : Env) (epoch : Nat) (fs : FS) : FS :=
  match fs.appExe with
  | none => fs
  | some content =>
    match env.binBackupFail with
    | BackupFail.atCopy => fs
    | BackupFail.ok =>
      { fs with binBackups := rotateKeep 3 (putEntry fs.binBackups (backupName epoch) content) }
    | BackupFail.atRemove k =>
      { fs with binBackups := rotatePartial 3 k (putEntry fs.binBackups (backupName epoch) content) }

/-- `Updater._backup_database` (updater.py:663-679): same rotation pattern
against the data directory for `zocopos_local.db`, cap 5, with the same
swallowed-exception modes (`env.dbBackupFail`). -/
def backup_database (env : Env) (epoch : Nat) (fs : FS) : FS :=
  match fs.dbFile with
  | none => fs
  | some content =>
    match env.dbBackupFail with
    | BackupFail.atCopy => fs
    | BackupFail.ok =>
      { fs with dbBackups := rotateKeep 5 (putEntry fs.dbBackups (dbBackupName epoch) content) }
    | BackupFail.atRemove k =>
      { fs with dbBackups := rotatePartial 5 k (putEntry fs.dbBackups (dbBackupName epoch) content) }

/-- `Updater._restore_backup` (updater.py:681-692): sort backup names
descending and copy the first (largest name, most recent epoch) over
`APP_EXE`; with no backups nothing happens.  The whole body is inside a
`try` whose failure is swallowed (`"Restore failed"`), so restore is
best-effort: when the listing or the copy raises (`env.restoreFails`)
nothing is restored. -/
def restore_backup (env : Env) (fs : FS) : FS :=
  if env.restoreFails then fs
  else
    match (sortEntries fs.binBackups).reverse with
    | [] => fs
    | b :: _ => { fs with appExe := some b.2 }

/-- The old-executable removal in `_install_from_local` (updater.py:418-423):
`try: os.remove(APP_EXE) except Exception: time.sleep(1); os.remove(APP_EXE)` —
one retry after a wait; a second failure propagates (no rename fallback). -/
def localRemoveStep (env : Env) (fs : FS) : FS × Option Exn :=
  match fs.appExe with
  | none => (fs, none)
  | some _ =>
    if env.removeFails1 then
      if env.removeFails2 then (fs, some Exn.remove)
      else ({ fs with appExe := none }, none)
    else ({ fs with appExe := none }, none)

/-- The old-executable removal in `_install_from_github` (updater.py:514-522):
first `os.remove` failure is retried only for `PermissionError`, after
`time.sleep(2)`; if the retry also fails, `os.rename(APP_EXE, APP_EXE + ".old")`
moves the old file aside. -/
def githubRemoveStep (env : Env) (fs : FS) : FS × Option Exn :=
  match fs.appExe with
  | none => (fs, none)
  | some old =>
    if env.removeFails1 then
      if env.removePermission then
        if env.removeFails2 then
          if env.renameFails then (fs, some Exn.rename)
          else ({ fs with appExe := none, appExeOld := some old }, none)
        else ({ fs with appExe := none }, none)
      else (fs, some Exn.remove)
    else ({ fs with appExe := none }, none)

/-- `Updater._install_from_local` (updater.py:397-454): check the source
exists (else return `False`), remove the old executable (one retry, no
rename fallback), `shutil.copy2` the source over `APP_EXE`, compute the
SHA-256 of the freshly copied file, and write the version record with
that computed digest, `source="local"` and a UTC timestamp (`now`). -/
def installFromLocal (env : Env) (h : String → String) (ri : RemoteInfo)
    (now : String) (fs : FS) : FS × PyR :=
  let newVer := ri.version.getD "unknown"
  match fs.localSource with
  | none => (fs, PyR.ret false)
  | some src =>
    match localRemoveStep env fs with
    | (fs1, some e) => (fs1, PyR.exn e)
    | (fs1, none) =>
      if env.copyFails then (fs1, PyR.exn Exn.copy)
      else
        let fs2 := { fs1 with appExe := some src }
        let sha := calculate_sha256 h src
        if env.writeVersionFails then
          ({ fs2 with versionFile := VFile.invalidJson }, PyR.exn Exn.writeVersion)
        else
          ({ fs2 with versionFile := VFile.record newVer sha "local" now }, PyR.ret true)

/-- The tail of `_install_from_github` after a verified (or unverified)
staged file (updater.py:510-537): remove the old executable (retry +
rename-aside on `PermissionError`), `shutil.move` the staged file to
`APP_EXE`, and write the version record with
`sha256 = expected_sha or calculate_sha256(APP_EXE)`, `source="github"`. -/
def githubInstallTail (env : Env) (h : String → String) (expected : Option String)
    (newVer now : String) (fs : FS) : FS × PyR :=
  match githubRemoveStep env fs with
  | (fs1, some e) => (fs1, PyR.exn e)
  | (fs1, none) =>
    if env.moveFails then (fs1, PyR.exn Exn.move)
    else
      match fs1.staged with
      | none => (fs1, PyR.exn Exn.move)
      | some content =>
        let fs2 := { fs1 with appExe := some content, staged := none }
        let shaField := pyOrStr expected (calculate_sha256 h content)
        if env.writeVersionFails then
          ({ fs2 with versionFile := VFile.invalidJson }, PyR.exn Exn.writeVersion)
        else
          ({ fs2 with versionFile := VFile.record newVer shaField "github" now }, PyR.ret true)

/-- `Updater._install_from_github` (updater.py:456-537): bail out with
`False` when there is no download URL; stream-download into the staging
file (`downloadFails` models a raised request/write error leaving a
partial staged file); if an expected hash was provided (Python truthiness),
compare `calculate_sha256(temp_path)` with `expected_sha.upper()` and on
mismatch delete the staged file and return `False`; otherwise install the
staged file and persist the version record. -/
def installFromGithub (env : Env) (h : String → String) (ri : RemoteInfo)
    (now : String) (fs : FS) : FS × PyR :=
  let newVer := ri.version.getD "unknown"
  match ri.download_url with
  | none => (fs, PyR.ret false)
  | some _ =>
    if env.downloadFails then
      ({ fs with staged := some env.brokenContent }, PyR.exn Exn.download)
    else
      let fs1 := { fs with staged := some env.remoteContent }
      if strTruthy ri.sha256 then
        if calculate_sha256 h env.remoteContent ≠ strUpper (ri.sha256.getD "") then
          ({ fs1 with staged := none }, PyR.ret false)
        else
          githubInstallTail env h ri.sha256 newVer now fs1
      else
        githubInstallTail env h ri.sha256 newVer now fs1

/-- Step 1 of `_download_and_install` (updater.py:380-384): when this is
not a first-time install and the app is currently installed, run
`_backup_current()` then `_backup_database()`. -/
def backupPhase (env : Env) (epoch : Nat) (isFirstTime : Bool) (fs : FS) : FS :=
  if !isFirstTime && fs.appExe.isSome then
    backup_database env epoch (backup_current env epoch fs)
  else fs

/-- The source-variant dispatch `if LOCAL_MODE: ... else: ...` shared by
`_download_and_install` (updater.py:386-389) and the background loop
(updater.py:771-774). -/
def installDispatch (localMode : Bool) (env : Env) (h : String → String)
    (ri : RemoteInfo) (now : String) (fs : FS) : FS × PyR :=
  if localMode then installFromLocal env h ri now fs
  else installFromGithub env h ri now fs

/-- `Updater._download_and_install` (updater.py:375-395): inside a
`try`, back up the binary and the database when this is an update of an
existing installation, then delegate to the active source variant; on any
exception, if `APP_EXE` is now missing, `_restore_backup()` first, and
return `False`. -/
def downloadAndInstall (localMode : Bool) (env : Env) (h : String → String)
    (ri : RemoteInfo) (isFirstTime : Bool) (epoch : Nat) (now : String) (fs : FS) :
    FS × Bool :=
  match installDispatch localMode env h ri now (backupPhase env epoch isFirstTime fs) with
  | (fs2, PyR.ret b) => (fs2, b)
  | (fs2, PyR.exn _) =>
    if fs2.appExe.isNone then (restore_backup env fs2, false) else (fs2, false)

/-- Result of one run of `_update_flow`: final filesystem state, whether
the download-and-install procedure was attempted, whether it succeeded,
and whether the flow handed over to `_launch_app_and_go_background`. -/
structure FlowOut where
  fs : FS
  attempted : Bool
  succeeded : Bool
  launched : Bool
deriving DecidableEq

/-- `Updater._update_flow` (updater.py:333-371): fetch release info
(`fetch` is the result of `_fetch_release_info`); when nothing was fetched
(offline) or the fetched version equals the installed one, only UI status
calls happen and the flow launches the app; when the versions differ the
shared download-and-install procedure runs, and the flow launches the app
whether it succeeded or failed. -/
def updateFlow (localMode : Bool) (env : Env) (h : String → String)
    (fetch : Option RemoteInfo) (localVer : String) (epoch : Nat) (now : String)
    (fs : FS) : FlowOut :=
  match fetch with
  | none => ⟨fs, false, false, true⟩
  | some remote =>
    let remoteVer := remote.version.getD "0.0.0"
    if remoteVer ≠ localVer then
      let r := downloadAndInstall localMode env h remote false epoch now fs
      ⟨r.1, true, r.2, true⟩
    else ⟨fs, false, false, true⟩

/-- The bounded wait loop of `_background_update_loop` (updater.py:755-761).
`running k` is the result of the `k`-th call to
`is_process_running("ZocoPOS.exe")` in this cycle; `rem` is the number of
sleeps still permitted before `wait_count > 360` breaks the loop.  The
returned index is the one used by the final re-check
`if is_process_running(...)` (updater.py:763). -/
def waitGo (running : Nat → Bool) : Nat → Nat → Nat
  | i, 0 => i + 1
  | i, rem + 1 => if running i then waitGo running (i + 1) rem else i + 1

/-- Index of the final process re-check after the wait loop, starting from
the first check with `wait_count = 0` (360 further sleeps permitted before
the `wait_count > 360` break). -/
def waitFinal (running : Nat → Bool) : Nat :=
  waitGo running 0 360

/-- Outcome of one cycle of the background monitor. -/
inductive CycleOutcome
  | noRelease
  | upToDate
  | skippedRunning
  | updated
  | failed
  | errored
deriving DecidableEq

/-- One cycle of `Updater._background_update_loop` (updater.py:736-782),
after the interval sleep: read the local version, fetch release info;
`continue` when nothing was fetched or versions match; otherwise wait for
the managed process to exit (bounded) and skip the cycle if it is still
running; else back up the binary and the database and call the active
install routine directly.  The surrounding `except Exception` only logs:
an exception from the install routine ends the cycle with no restore. -/
def bgCycle (localMode : Bool) (env : Env) (h : String → String)
    (fetch : Option RemoteInfo) (running : Nat → Bool) (epoch : Nat) (now : String)
    (fs : FS) : FS × CycleOutcome :=
  let localVer := get_local_version fs.versionFile
  match fetch with
  | none => (fs, CycleOutcome.noRelease)
  | some remote =>
    let remoteVer := remote.version.getD "0.0.0"
    if remoteVer = localVer then (fs, CycleOutcome.upToDate)
    else
      if running (waitFinal running) then (fs, CycleOutcome.skippedRunning)
      else
        let fs1 := backup_database env epoch (backup_current env epoch fs)
        match installDispatch localMode env h remote now fs1 with
        | (fs2, PyR.ret true) => (fs2, CycleOutcome.updated)
        | (fs2, PyR.ret false) => (fs2, CycleOutcome.failed)
        | (fs2, PyR.exn _) => (fs2, CycleOutcome.errored)

/-- The last `cap` elements of a list (what the rotation loop keeps). -/
def lastCap (cap : Nat) (l : List α) : List α :=
  l.drop (l.length - cap)

/-- Environment of one fully successful remote update whose downloaded
artifact has content `content`. -/
def stepEnv (content : String) : Env :=
  { idealEnv with remoteContent := content }

/-- A plain release descriptor with no metadata asset (no expected hash). -/
def riPlain : RemoteInfo :=
  ⟨some "1.0.0", some "u", none, "22", ""⟩

/-- `N` consecutive successful remote updates, each one a full run of the
download-and-install procedure: step `(epoch, content)` backs up the
currently installed binary under `backupName epoch` and installs a new
binary with the given content. -/
def runUpdates (hsh : String → String) (steps : List (Nat × String)) (fs : FS) : FS :=
  steps.foldl
    (fun s st => (downloadAndInstall false (stepEnv st.2) hsh riPlain false st.1 "t" s).1)
    fs

/-- Split a character list at `'.'` separators (structural counterpart of
`str.split(".")`, used only to state what a semantic version is). -/
def splitDotAux : List Char → List Char → List (List Char)
  | [], acc => [acc.reverse]
  | c :: cs, acc =>
    if c = '.' then acc.reverse :: splitDotAux cs [] else splitDotAux cs (c :: acc)

/-- Decimal value of a digit sequence; `none` when empty or non-numeric. -/
def decDigits : List Char → Option Nat
  | [] => none
  | cs =>
    cs.foldl
      (fun acc c =>
        match acc with
        | none => none
        | some n => if c.isDigit then some (n * 10 + (c.toNat - 48)) else none)
      (some 0)

/-- Numeric components of a dotted version string, for stating what a
"strictly older" (downgrade) version is. -/
def parseSemver (s : String) : List Nat :=
  (splitDotAux s.data []).map (fun cs => (decDigits cs).getD 0)

/-- Lexicographic `<` on numeric component lists. -/
def lexNatLt : List Nat → List Nat → Bool
  | [], [] => false
  | [], _ :: _ => true
  | _ :: _, [] => false
  | a :: as, b :: bs => if a < b then true else if a = b then lexNatLt as bs else false

/-- Strict semantic-version ordering: lexicographic on numeric components. -/
def verLess (a b : String) : Bool :=
  lexNatLt (parseSemver a) (parseSemver b)

theorem backup_current_fields (env : Env) (e : Nat) (fs : FS) :
    (backup_current env e fs).appExe = fs.appExe ∧
    (backup_current env e fs).appExeOld = fs.appExeOld ∧
    (backup_current env e fs).versionFile = fs.versionFile ∧
    (backup_current env e fs).staged = fs.staged ∧
    (backup_current env e fs).dbBackups = fs.dbBackups ∧
    (backup_current env e fs).dbFile = fs.dbFile ∧
    (backup_current env e fs).localSource = fs.localSource := by
  obtain ⟨a, ao, v, st, bb, db, dbf, ls⟩ := fs
  cases a
  · simp [backup_current]
  · simp only [backup_current]
    split <;> simp

theorem backup_database_fields (env : Env) (e : Nat) (fs : FS) :
    (backup_database env e fs).appExe = fs.appExe ∧
    (backup_database env e fs).appExeOld = fs.appExeOld ∧
    (backup_database env e fs).versionFile = fs.versionFile ∧
    (backup_database env e fs).staged = fs.staged ∧
    (backup_database env e fs).binBackups = fs.binBackups ∧
    (backup_database env e fs).dbFile = fs.dbFile ∧
    (backup_database env e fs).localSource = fs.localSource := by
  obtain ⟨a, ao, v, st, bb, db, dbf, ls⟩ := fs
  cases dbf
  · simp [backup_database]
  · simp only [backup_database]
    split <;> simp

theorem backupPhase_appExe (env : Env) (e : Nat) (ft : Bool) (fs : FS) :
    (backupPhase env e ft fs).appExe = fs.appExe := by
  unfold backupPhase
  split
  · rw [(backup_database_fields env e _).1, (backup_current_fields env e fs).1]
  · rfl

theorem backupPhase_versionFile (env : Env) (e : Nat) (ft : Bool) (fs : FS) :
    (backupPhase env e ft fs).versionFile = fs.versionFile := by
  unfold backupPhase
  split
  · rw [(backup_database_fields env e _).2.2.1, (backup_current_fields env e fs).2.2.1]
  · rfl

theorem backupPhase_localSource (env : Env) (e : Nat) (ft : Bool) (fs : FS) :
    (backupPhase env e ft fs).localSource = fs.localSource := by
  unfold backupPhase
  split
  · rw [(backup_database_fields env e _).2.2.2.2.2.2,
      (backup_current_fields env e fs).2.2.2.2.2.2]
  · rfl

theorem length_sortEntries (l : List (String × String)) :
    (sortEntries l).length = l.length :=
  List.length_insertionSort entLE l

theorem rotateKeep_length_le (cap : Nat) (l : List (String × String)) :
    (rotateKeep cap l).length ≤ cap := by
  show ((sortEntries l).drop ((sortEntries l).length - cap)).length ≤ cap
  rw [List.length_drop]
  omega

theorem sortDrop_evicts {j : Nat} {l : List (String × String)}
    {p q : String × String} (hp : p ∈ l) (hnp : p ∉ (sortEntries l).drop j)
    (hq : q ∈ (sortEntries l).drop j) : entLE p q := by
  have hs : List.Pairwise entLE (sortEntries l) := List.sorted_insertionSort entLE l
  have hmem : p ∈ sortEntries l := (List.mem_insertionSort entLE).2 hp
  rw [← List.take_append_drop j (sortEntries l)] at hmem hs
  have hptake : p ∈ (sortEntries l).take j := by
    rcases List.mem_append.1 hmem with h | h
    · exact h
    · exact absurd h hnp
  exact (List.pairwise_append.1 hs).2.2 p hptake q hq

theorem rotateKeep_evicts {cap : Nat} {l : List (String × String)}
    {p q : String × String} (hp : p ∈ l) (hnp : p ∉ rotateKeep cap l)
    (hq : q ∈ rotateKeep cap l) : entLE p q :=
  sortDrop_evicts hp hnp hq

theorem rotatePartial_evicts {cap k : Nat} {l : List (String × String)}
    {p q : String × String} (hp : p ∈ l) (hnp : p ∉ rotatePartial cap k l)
    (hq : q ∈ rotatePartial cap k l) : entLE p q :=
  sortDrop_evicts hp hnp hq

theorem sortEntries_eq_of_sorted {l : List (String × String)}
    (h : List.Pairwise entLE l) : sortEntries l = l :=
  List.Sorted.insertionSort_eq h

theorem putEntry_of_not_mem {l : List (String × String)} {n c : String}
    (h : ∀ p ∈ l, p.1 ≠ n) : putEntry l n c = l ++ [(n, c)] := by
  have hfa : l.any (fun p => p.1 == n) = false := by
    rw [Bool.eq_false_iff]
    intro hc
    rcases List.any_eq_true.1 hc with ⟨p, hp, he⟩
    exact h p hp (by simpa using he)
  simp [putEntry, hfa]

theorem lastCap_eq_reverse_take (cap : Nat) (l : List α) :
    lastCap cap l = (l.reverse.take cap).reverse := by
  rw [List.take_reverse, List.reverse_reverse]
  rfl

theorem lastCap_append_right (cap : Nat) (l r : List α) :
    lastCap cap (lastCap cap l ++ r) = lastCap cap (l ++ r) := by
  simp only [lastCap_eq_reverse_take, List.reverse_append, List.reverse_reverse,
    List.take_append_eq_append_take, List.take_take, List.length_reverse]
  rw [Nat.min_eq_left (Nat.sub_le cap r.length)]

theorem lastCap_of_length_le {l : List α} {cap : Nat} (h : l.length ≤ cap) :
    lastCap cap l = l := by
  unfold lastCap
  rw [Nat.sub_eq_zero_of_le h, List.drop_zero]

theorem length_lastCap (cap : Nat) (l : List α) :
    (lastCap cap l).length = min cap l.length := by
  simp only [lastCap, List.length_drop]
  omega

theorem waitGo_all_running {running : Nat → Bool} (h : ∀ k, running k = true)
    (rem i : Nat) : waitGo running i rem = i + rem + 1 := by
  induction rem generalizing i with
  | zero => rfl
  | succ n ih =>
    simp only [waitGo, h i, if_true]
    rw [ih (i + 1)]
    omega

/-- C10: `get_local_version` is total and never propagates an error — for
an absent, unreadable, invalid-JSON or version-keyless version file it
returns the default `"0.0.0"` (it is a total Lean function on every
`VFile`, mirroring the `try/except` plus `dict.get` default in the
source). -/
theorem c10_get_local_version_total :
    get_local_version VFile.absent = "0.0.0" ∧
    get_local_version VFile.unreadable = "0.0.0" ∧
    get_local_version VFile.invalidJson = "0.0.0" ∧
    get_local_version VFile.noVersionKey = "0.0.0" := by
  refine ⟨rfl, rfl, rfl, rfl⟩

/-- C5: when the update flow fetches nothing (offline) or the fetched
version equals the installed one, it performs zero file mutations — the
final filesystem state is exactly the input state — and proceeds directly
to launching the app. -/
theorem c5_no_mutation_up_to_date_or_offline (localMode : Bool) (env : Env)
    (h : String → String) (localVer : String) (epoch : Nat) (now : String) (fs : FS) :
    updateFlow localMode env h none localVer epoch now fs = ⟨fs, false, false, true⟩ ∧
    (∀ r : RemoteInfo, r.version.getD "0.0.0" = localVer →
      updateFlow localMode env h (some r) localVer epoch now fs
        = ⟨fs, false, false, true⟩) := by
  refine ⟨rfl, fun r hr => ?_⟩
  simp [updateFlow, hr]

/-- Witness for C5: a concrete up-to-date state, fetched version equal to
installed, leaves the state untouched and launches. -/
theorem c5_witness :
    updateFlow false idealEnv (fun s => s)
      (some ⟨some "1.0.0", some "u", none, "22", ""⟩) "1.0.0" 5 "t"
      ⟨some "E", none, VFile.record "1.0.0" "S" "github" "t0", none, [], [], none, none⟩
      = ⟨⟨some "E", none, VFile.record "1.0.0" "S" "github" "t0", none, [], [], none, none⟩,
          false, false, true⟩ :=
  (c5_no_mutation_up_to_date_or_offline false idealEnv (fun s => s) "1.0.0" 5 "t"
    ⟨some "E", none, VFile.record "1.0.0" "S" "github" "t0", none, [], [], none, none⟩).2
    ⟨some "1.0.0", some "u", none, "22", ""⟩ rfl

/-- C9: the update decision in both the foreground flow and the background
monitor is plain string inequality between the fetched and installed
version strings — the foreground flow attempts an install exactly when the
strings differ, the background cycle reports up-to-date exactly when they
are equal — and a fetched version that is semantically older than the
installed one (a downgrade, e.g. 0.9.0 over 1.0.0) still triggers the
download-and-install procedure. -/
theorem c9_plain_string_inequality (localMode : Bool) (env : Env)
    (h : String → String) (r : RemoteInfo) (localVer : String) (epoch : Nat)
    (now : String) (fs : FS) (running : Nat → Bool) :
    ((updateFlow localMode env h (some r) localVer epoch now fs).attempted
        = !(r.version.getD "0.0.0" == localVer)) ∧
    ((bgCycle localMode env h (some r) running epoch now fs).2 = CycleOutcome.upToDate
        ↔ r.version.getD "0.0.0" = get_local_version fs.versionFile) ∧
    verLess "0.9.0" "1.0.0" = true ∧
    (updateFlow localMode env h (some ⟨some "0.9.0", none, none, "22", ""⟩)
        "1.0.0" epoch now fs).attempted = true := by
  have hbg : ∀ hne : r.version.getD "0.0.0" ≠ get_local_version fs.versionFile,
      (bgCycle localMode env h (some r) running epoch now fs).2
        ≠ CycleOutcome.upToDate := by
    intro hne
    simp only [bgCycle, if_neg hne]
    split
    · simp
    · split <;> simp
  refine ⟨?_, ?_, by decide, ?_⟩
  · by_cases heq : r.version.getD "0.0.0" = localVer
    · simp [updateFlow, heq]
    · simp [updateFlow, heq]
  · by_cases heq : r.version.getD "0.0.0" = get_local_version fs.versionFile
    · simp [bgCycle, heq]
    · exact iff_of_false (hbg heq) heq
  · simp only [updateFlow, Option.getD_some]
    rw [if_pos (by decide : ("0.9.0" : String) ≠ "1.0.0")]

/-- C3: a remote install whose release carries a (non-empty) expected
SHA-256 that does not match the computed digest of the downloaded staged
file — the comparison being case-insensitive, the expected hex string
uppercased against the already-uppercase computed digest — deletes the
staged file, fails the procedure with an integrity error (`False`), leaves
the canonical executable and the installed version file unchanged, and is
never retried automatically: the foreground update flow makes the single
failed attempt and proceeds to launch, and a background cycle ends as
`failed` until its next interval. -/
theorem c3_integrity_mismatch_safe (env : Env) (h : String → String)
    (ri : RemoteInfo) (now : String) (fs : FS) (u s localVer : String)
    (epoch : Nat) (running : Nat → Bool)
    (hdl : env.downloadFails = false)
    (hurl : ri.download_url = some u)
    (hsha : ri.sha256 = some s) (hne : s ≠ "")
    (hmis : calculate_sha256 h env.remoteContent ≠ strUpper s) :
    installFromGithub env h ri now fs = ({ fs with staged := none }, PyR.ret false) ∧
    (downloadAndInstall false env h ri false epoch now fs).2 = false ∧
    (downloadAndInstall false env h ri false epoch now fs).1.appExe = fs.appExe ∧
    (downloadAndInstall false env h ri false epoch now fs).1.versionFile
      = fs.versionFile ∧
    (updateFlow false env h (some ri) localVer epoch now fs).succeeded = false ∧
    (updateFlow false env h (some ri) localVer epoch now fs).launched = true ∧
    (updateFlow false env h (some ri) localVer epoch now fs).fs.appExe = fs.appExe ∧
    (updateFlow false env h (some ri) localVer epoch now fs).fs.versionFile
      = fs.versionFile ∧
    (ri.version.getD "0.0.0" ≠ get_local_version fs.versionFile →
      running (waitFinal running) = false →
      (bgCycle false env h (some ri) running epoch now fs).2 = CycleOutcome.failed ∧
      (bgCycle false env h (some ri) running epoch now fs).1.appExe = fs.appExe ∧
      (bgCycle false env h (some ri) running epoch now fs).1.versionFile
        = fs.versionFile) := by
  have hts : strTruthy (some s) = true := by
    simp [strTruthy, hne]
  have key : ∀ g : FS, installFromGithub env h ri now g
      = ({ g with staged := none }, PyR.ret false) := by
    intro g
    simp only [installFromGithub, hurl, hdl, Bool.false_eq_true, if_false,
      hsha, Option.getD_some]
    rw [if_pos hts, if_pos hmis]
  have kdi : downloadAndInstall false env h ri false epoch now fs
      = ({ backupPhase env epoch false fs with staged := none }, false) := by
    simp only [downloadAndInstall, installDispatch, Bool.false_eq_true, if_false]
    rw [key (backupPhase env epoch false fs)]
  have hba : (backupPhase env epoch false fs).appExe = fs.appExe :=
    backupPhase_appExe env epoch false fs
  have hbv : (backupPhase env epoch false fs).versionFile = fs.versionFile :=
    backupPhase_versionFile env epoch false fs
  have kuf : ∀ hv : ri.version.getD "0.0.0" ≠ localVer,
      updateFlow false env h (some ri) localVer epoch now fs
        = ⟨({ backupPhase env epoch false fs with staged := none }), true, false, true⟩ := by
    intro hv
    simp only [updateFlow, if_pos hv, kdi]
  refine ⟨key fs, by rw [kdi], by rw [kdi]; exact hba, by rw [kdi]; exact hbv,
    ?_, ?_, ?_, ?_, ?_⟩
  · by_cases hv : ri.version.getD "0.0.0" ≠ localVer
    · rw [kuf hv]
    · simp only [ne_eq, not_not] at hv
      simp [updateFlow, hv]
  · by_cases hv : ri.version.getD "0.0.0" ≠ localVer
    · rw [kuf hv]
    · simp only [ne_eq, not_not] at hv
      simp [updateFlow, hv]
  · by_cases hv : ri.version.getD "0.0.0" ≠ localVer
    · rw [kuf hv]; exact hba
    · simp only [ne_eq, not_not] at hv
      simp [updateFlow, hv]
  · by_cases hv : ri.version.getD "0.0.0" ≠ localVer
    · rw [kuf hv]; exact hbv
    · simp only [ne_eq, not_not] at hv
      simp [updateFlow, hv]
  · intro hbne hrun
    have kbg : bgCycle false env h (some ri) running epoch now fs
        = ({ backup_database env epoch (backup_current env epoch fs) with staged := none },
            CycleOutcome.failed) := by
      simp only [bgCycle, if_neg hbne, hrun, Bool.false_eq_true, if_false, installDispatch]
      rw [key (backup_database env epoch (backup_current env epoch fs))]
    refine ⟨by rw [kbg], ?_, ?_⟩
    · rw [kbg]
      show (backup_database env epoch (backup_current env epoch fs)).appExe = fs.appExe
      rw [(backup_database_fields env epoch _).1, (backup_current_fields env epoch fs).1]
    · rw [kbg]
      show (backup_database env epoch (backup_current env epoch fs)).versionFile
        = fs.versionFile
      rw [(backup_database_fields env epoch _).2.2.1,
        (backup_current_fields env epoch fs).2.2.1]

/-- Witness for C3: a concrete mismatching download (expected `"ab"`,
served content hashing to `"CC"`) is rejected with the staged file removed
and nothing else changed. -/
theorem c3_witness :
    installFromGithub { idealEnv with remoteContent := "NEW" } (fun _ => "cc")
        ⟨some "2.0.0", some "u", some "ab", "22", ""⟩ "t"
        ⟨some "OLD", none, VFile.record "1.0.0" "S" "github" "t0", none, [], [], none, none⟩
      = (⟨some "OLD", none, VFile.record "1.0.0" "S" "github" "t0", none, [], [], none, none⟩,
          PyR.ret false) :=
  (c3_integrity_mismatch_safe { idealEnv with remoteContent := "NEW" } (fun _ => "cc")
    ⟨some "2.0.0", some "u", some "ab", "22", ""⟩ "t"
    ⟨some "OLD", none, VFile.record "1.0.0" "S" "github" "t0", none, [], [], none, none⟩
    "u" "ab" "1.0.0" 7 (fun _ => false) rfl rfl rfl (by decide) (by decide)).1

/-- C6: a background cycle that detects a version difference backs up or
installs nothing while the managed process runs — if the final bounded
re-check still reports the process running the cycle is skipped with no
state change at all — and under a continuously running process the wait
loop performs its full budget of 361 ten-second sleeps (about one hour,
3610 s) and then skips the cycle. -/
theorem c6_monitor_waits_for_exit (localMode : Bool) (env : Env)
    (h : String → String) (remote : RemoteInfo) (running : Nat → Bool)
    (epoch : Nat) (now : String) (fs : FS)
    (hdiff : remote.version.getD "0.0.0" ≠ get_local_version fs.versionFile) :
    (running (waitFinal running) = true →
      bgCycle localMode env h (some remote) running epoch now fs
        = (fs, CycleOutcome.skippedRunning)) ∧
    ((∀ k, running k = true) →
      waitFinal running = 361 ∧
      bgCycle localMode env h (some remote) running epoch now fs
        = (fs, CycleOutcome.skippedRunning)) := by
  have hskip : running (waitFinal running) = true →
      bgCycle localMode env h (some remote) running epoch now fs
        = (fs, CycleOutcome.skippedRunning) := by
    intro hr
    simp only [bgCycle, if_neg hdiff, hr, if_true]
  refine ⟨hskip, fun hall => ⟨?_, hskip (hall _)⟩⟩
  unfold waitFinal
  rw [waitGo_all_running hall]

/-- Witness for C6: with a process that never exits, the concrete cycle is
skipped untouched and the wait loop bound is hit at poll index 361. -/
theorem c6_witness :
    bgCycle false idealEnv (fun s => s)
        (some ⟨some "2.0.0", some "u", none, "22", ""⟩) (fun _ => true) 9 "t"
        ⟨some "OLD", none, VFile.record "1.0.0" "S" "github" "t0", none, [], [], none, none⟩
      = (⟨some "OLD", none, VFile.record "1.0.0" "S" "github" "t0", none, [], [], none,
            none⟩, CycleOutcome.skippedRunning) ∧
    waitFinal (fun _ => true) = 361 :=
  ⟨((c6_monitor_waits_for_exit false idealEnv (fun s => s)
      ⟨some "2.0.0", some "u", none, "22", ""⟩ (fun _ => true) 9 "t"
      ⟨some "OLD", none, VFile.record "1.0.0" "S" "github" "t0", none, [], [], none, none⟩
      (by decide)).2 (fun _ => rfl)).2,
   ((c6_monitor_waits_for_exit false idealEnv (fun s => s)
      ⟨some "2.0.0", some "u", none, "22", ""⟩ (fun _ => true) 9 "t"
      ⟨some "OLD", none, VFile.record "1.0.0" "S" "github" "t0", none, [], [], none, none⟩
      (by decide)).2 (fun _ => rfl)).1⟩

/-- A concrete installed state used in concrete instances: binary `"OLD"`
installed, version 1.0.0 recorded, no backups, local source `"NEW"`. -/
def fsSample : FS :=
  ⟨some "OLD", none, VFile.record "1.0.0" "S" "github" "t0", none, [], [], none, some "NEW"⟩

/-- Counterexample to C1 as stated: a Local-variant run of the
download-and-install procedure whose copy step fails (with the best-effort
backup also failing) has already removed the previously installed binary,
so the run ends with the canonical executable missing, not unchanged. -/
theorem c1_counterexample :
    (downloadAndInstall true
        { idealEnv with copyFails := true, binBackupFail := BackupFail.atCopy }
        (fun s => s) ⟨some "2.0.0", some "u", none, "22", ""⟩ false 1700000000 "t"
        fsSample).1.appExe = none ∧
    fsSample.appExe = some "OLD" := by
  exact ⟨by decide, rfl⟩

/-- C1 amended: under the Remote variant the executable is removed only
after the artifact is fully downloaded and any provided hash verified —
a failed download or a hash mismatch leaves the canonical executable and
version record unchanged; under the Local variant there is no staging: the
old executable is removed before the copy, so a failed copy ends the
install routine with the executable missing, and when the best-effort
backup also failed the whole procedure ends with it missing. -/
theorem c1_amended_removal_after_verification (env : Env) (h : String → String)
    (ri : RemoteInfo) (now : String) (fs : FS) (u s src : String) (epoch : Nat) :
    (env.downloadFails = true → ri.download_url = some u →
      (installFromGithub env h ri now fs).1.appExe = fs.appExe ∧
      (installFromGithub env h ri now fs).1.versionFile = fs.versionFile) ∧
    (env.downloadFails = false → ri.download_url = some u → ri.sha256 = some s →
      s ≠ "" → calculate_sha256 h env.remoteContent ≠ strUpper s →
      installFromGithub env h ri now fs = ({ fs with staged := none }, PyR.ret false)) ∧
    (fs.appExe.isSome = true → fs.localSource = some src →
      env.removeFails1 = false → env.copyFails = true →
      installFromLocal env h ri now fs
        = ({ fs with appExe := none }, PyR.exn Exn.copy)) ∧
    (fs.appExe.isSome = true → fs.localSource = some src →
      env.removeFails1 = false → env.copyFails = true →
      env.binBackupFail = BackupFail.atCopy → fs.binBackups = [] →
      (downloadAndInstall true env h ri false epoch now fs).1.appExe = none) := by
  have hloc : ∀ (g : FS) (c : String), g.appExe = some c → g.localSource = some src →
      env.removeFails1 = false → env.copyFails = true →
      installFromLocal env h ri now g = ({ g with appExe := none }, PyR.exn Exn.copy) := by
    intro g c hg hls hr1 hcf
    simp only [installFromLocal, hls, localRemoveStep, hg, hr1, Bool.false_eq_true,
      if_false, hcf, if_true]
  refine ⟨?_, ?_, ?_, ?_⟩
  · intro hdl hurl
    refine ⟨?_, ?_⟩ <;> simp [installFromGithub, hurl, hdl]
  · intro hdl hurl hsha hne hmis
    have hts : strTruthy (some s) = true := by simp [strTruthy, hne]
    simp only [installFromGithub, hurl, hdl, Bool.false_eq_true, if_false,
      hsha, Option.getD_some]
    rw [if_pos hts, if_pos hmis]
  · intro hex hls hr1 hcf
    obtain ⟨c, hc⟩ := Option.isSome_iff_exists.1 hex
    exact hloc fs c hc hls hr1 hcf
  · intro hex hls hr1 hcf hbf hbb
    obtain ⟨c, hc⟩ := Option.isSome_iff_exists.1 hex
    have hbc : backup_current env epoch fs = fs := by
      simp [backup_current, hc, hbf]
    have hph : backupPhase env epoch false fs = backup_database env epoch fs := by
      simp only [backupPhase, Bool.not_false, Bool.true_and, hex, if_true, hbc]
    have h1app : (backup_database env epoch fs).appExe = some c := by
      rw [(backup_database_fields env epoch fs).1, hc]
    have h1ls : (backup_database env epoch fs).localSource = some src := by
      rw [(backup_database_fields env epoch fs).2.2.2.2.2.2, hls]
    have h1bb : (backup_database env epoch fs).binBackups = [] := by
      rw [(backup_database_fields env epoch fs).2.2.2.2.1, hbb]
    have hinst := hloc (backup_database env epoch fs) c h1app h1ls hr1 hcf
    simp only [downloadAndInstall, installDispatch, if_true, hph, hinst]
    cases hre : env.restoreFails <;>
      simp [restore_backup, hre, sortEntries, h1bb, List.insertionSort]

/-- Environment of a remote update whose final `shutil.move` into the
canonical path raises. -/
def envMove : Env := { idealEnv with remoteContent := "NEW", moveFails := true }

/-- A release descriptor with no metadata asset. -/
def riNoSha : RemoteInfo := ⟨some "2.0.0", some "u", none, "22", ""⟩

/-- Installed state with one existing binary backup. -/
def fsOneBackup : FS :=
  ⟨some "OLD", none, VFile.record "1.0.0" "S" "github" "t0", none,
    [("ZocoPOS_backup_1700000000.exe", "B")], [], none, none⟩

/-- The state `envMove` leaves behind: executable removed, download staged,
backups of the old binary present, move failed before placement. -/
def fsAfterMoveFail : FS :=
  ⟨none, none, VFile.record "1.0.0" "S" "github" "t0", some "NEW",
    [("ZocoPOS_backup_1700000000.exe", "B"), ("ZocoPOS_backup_1700000001.exe", "OLD")],
    [], none, none⟩

/-- Counterexample to C2 as stated: the background monitor does not share
the download-and-install wrapper — a background cycle in which the install
routine raises after removing the executable ends with the canonical
executable missing and no backup restored, although a backup exists. -/
theorem c2_counterexample :
    (bgCycle false envMove (fun s => s) (some riNoSha) (fun _ => false)
        1700000001 "t" fsOneBackup).2 = CycleOutcome.errored ∧
    (bgCycle false envMove (fun s => s) (some riNoSha) (fun _ => false)
        1700000001 "t" fsOneBackup).1.appExe = none ∧
    (bgCycle false envMove (fun s => s) (some riNoSha) (fun _ => false)
        1700000001 "t" fsOneBackup).1.binBackups ≠ [] := by
  exact ⟨by decide, by decide, by decide⟩

/-- C2 amended: for every invocation that goes through
`_download_and_install` (the first-install and foreground-update flows),
an exception that leaves the canonical executable missing makes the
procedure invoke `_restore_backup()` before surfacing failure — but the
restore is best-effort (its own exception is swallowed, updater.py 688-692):
when the restore's listing and copy succeed and a backup exists, the
executable ends with the largest-named (most recent) backup's content,
while a failing restore can still leave the executable missing.  The
background monitor, by contrast, calls the install routines directly and
performs no restore at all (see the counterexample). -/
theorem c2_amended_restore_in_shared_procedure (localMode : Bool) (env : Env)
    (h : String → String) (ri : RemoteInfo) (isFirstTime : Bool) (epoch : Nat)
    (now : String) (fs fs2 : FS) (e : Exn)
    (hinst : installDispatch localMode env h ri now
        (backupPhase env epoch isFirstTime fs) = (fs2, PyR.exn e))
    (hmiss : fs2.appExe = none) :
    downloadAndInstall localMode env h ri isFirstTime epoch now fs
      = (restore_backup env fs2, false) ∧
    (env.restoreFails = false →
      ∀ b rest, (sortEntries fs2.binBackups).reverse = b :: rest →
      (downloadAndInstall localMode env h ri isFirstTime epoch now fs).1.appExe
        = some b.2) ∧
    (env.restoreFails = true →
      (downloadAndInstall localMode env h ri isFirstTime epoch now fs).1.appExe
        = none) := by
  have hd : downloadAndInstall localMode env h ri isFirstTime epoch now fs
      = (restore_backup env fs2, false) := by
    simp only [downloadAndInstall, hinst, hmiss, Option.isNone_none, if_true]
  refine ⟨hd, fun hre b rest hb => ?_, fun hre => ?_⟩
  · rw [hd]
    show (restore_backup env fs2).appExe = some b.2
    simp only [restore_backup, hre, Bool.false_eq_true, if_false, hb]
  · rw [hd]
    show (restore_backup env fs2).appExe = none
    simp only [restore_backup, hre, if_true, hmiss]

/-- Witness for C2 amended: the same failing remote install run through
the shared procedure, with a successful restore, puts the most recent
backup's content (`"OLD"`) back when the procedure reports failure. -/
theorem c2_witness :
    downloadAndInstall false envMove (fun s => s) riNoSha false 1700000001 "t"
        fsOneBackup = (restore_backup envMove fsAfterMoveFail, false) ∧
    (downloadAndInstall false envMove (fun s => s) riNoSha false 1700000001 "t"
        fsOneBackup).1.appExe = some "OLD" :=
  ⟨(c2_amended_restore_in_shared_procedure false envMove (fun s => s) riNoSha false
      1700000001 "t" fsOneBackup fsAfterMoveFail Exn.move (by decide) rfl).1,
   (c2_amended_restore_in_shared_procedure false envMove (fun s => s) riNoSha false
      1700000001 "t" fsOneBackup fsAfterMoveFail Exn.move (by decide) rfl).2.1 rfl
     ("ZocoPOS_backup_1700000001.exe", "OLD") [("ZocoPOS_backup_1700000000.exe", "B")]
     (by decide)⟩

/-- Counterexample to C7 as stated: in the Local variant, when removal of
the in-use executable fails and the single retry also fails, the old file
is not moved aside — the install routine raises, the procedure fails
outright, and no `.old` rename happens (the new file is never placed). -/
theorem c7_counterexample :
    (installFromLocal { idealEnv with removeFails1 := true, removeFails2 := true }
        (fun s => s) riNoSha "t" fsSample).2 = PyR.exn Exn.remove ∧
    (downloadAndInstall true { idealEnv with removeFails1 := true, removeFails2 := true }
        (fun s => s) riNoSha false 1700000002 "t" fsSample).2 = false ∧
    (downloadAndInstall true { idealEnv with removeFails1 := true, removeFails2 := true }
        (fun s => s) riNoSha false 1700000002 "t" fsSample).1.appExe = some "OLD" ∧
    (downloadAndInstall true { idealEnv with removeFails1 := true, removeFails2 := true }
        (fun s => s) riNoSha false 1700000002 "t" fsSample).1.appExeOld = none := by
  exact ⟨by decide, by decide, by decide, by decide⟩

/-- C7 amended: in the Remote variant a `PermissionError` on removal is
retried exactly once after a wait and, when the retry also fails, the old
file is renamed aside to `.old` so the install still completes with the
new file at the canonical path; in the Local variant removal is retried
once but a second failure propagates and fails the procedure — there is no
rename-aside fallback. -/
theorem c7_amended_remove_retry (env : Env) (h : String → String)
    (ri : RemoteInfo) (now : String) (fs : FS) (old src u : String) :
    (fs.appExe = some old → env.removeFails1 = true → env.removePermission = true →
      env.removeFails2 = false →
      githubRemoveStep env fs = ({ fs with appExe := none }, none)) ∧
    (fs.appExe = some old → env.removeFails1 = true → env.removePermission = true →
      env.removeFails2 = true → env.renameFails = false →
      githubRemoveStep env fs
        = ({ fs with appExe := none, appExeOld := some old }, none)) ∧
    (fs.appExe = some old → env.removeFails1 = true → env.removePermission = true →
      env.removeFails2 = true → env.renameFails = false →
      env.downloadFails = false → env.moveFails = false →
      env.writeVersionFails = false → ri.download_url = some u → ri.sha256 = none →
      (installFromGithub env h ri now fs).2 = PyR.ret true ∧
      (installFromGithub env h ri now fs).1.appExe = some env.remoteContent ∧
      (installFromGithub env h ri now fs).1.appExeOld = some old) ∧
    (fs.appExe = some old → env.removeFails1 = true → env.removeFails2 = true →
      fs.localSource = some src →
      installFromLocal env h ri now fs = (fs, PyR.exn Exn.remove)) := by
  refine ⟨?_, ?_, ?_, ?_⟩
  · intro hx h1 hp h2
    simp only [githubRemoveStep, hx, h1, hp, h2, Bool.false_eq_true, if_false, if_true]
  · intro hx h1 hp h2 hrn
    simp only [githubRemoveStep, hx, h1, hp, h2, hrn, Bool.false_eq_true, if_false,
      if_true]
  · intro hx h1 hp h2 hrn hdl hmv hwv hurl hsha
    have hrs : githubRemoveStep env { fs with staged := some env.remoteContent }
        = ({ fs with
              appExe := none
              appExeOld := some old
              staged := some env.remoteContent }, none) := by
      simp only [githubRemoveStep, hx, h1, hp, h2, hrn, Bool.false_eq_true, if_false,
        if_true]
    have hins : installFromGithub env h ri now fs
        = ({ fs with
              appExe := some env.remoteContent
              appExeOld := some old
              staged := none
              versionFile := VFile.record (ri.version.getD "unknown")
                (calculate_sha256 h env.remoteContent) "github" now }, PyR.ret true) := by
      simp only [installFromGithub, hurl, hdl, Bool.false_eq_true, if_false, hsha,
        strTruthy, githubInstallTail, hrs, hmv, hwv, pyOrStr]
    rw [hins]
    exact ⟨rfl, rfl, rfl⟩
  · intro hx h1 h2 hls
    simp only [installFromLocal, hls, localRemoveStep, hx, h1, h2, if_true]

/-- Witness for C7 amended at concrete inputs: each branch instantiated. -/
theorem c7_witness :
    githubRemoveStep { idealEnv with removeFails1 := true } fsSample
      = ({ fsSample with appExe := none }, none) ∧
    githubRemoveStep { idealEnv with removeFails1 := true, removeFails2 := true }
        fsSample = ({ fsSample with appExe := none, appExeOld := some "OLD" }, none) ∧
    (installFromGithub { idealEnv with
        removeFails1 := true
        removeFails2 := true
        remoteContent := "NEW" } (fun s => s) riNoSha "t" fsSample).2 = PyR.ret true ∧
    (installFromGithub { idealEnv with
        removeFails1 := true
        removeFails2 := true
        remoteContent := "NEW" } (fun s => s) riNoSha "t" fsSample).1.appExe
      = some "NEW" ∧
    installFromLocal { idealEnv with removeFails1 := true, removeFails2 := true }
        (fun s => s) riNoSha "t" fsSample = (fsSample, PyR.exn Exn.remove) :=
  ⟨(c7_amended_remove_retry { idealEnv with removeFails1 := true } (fun s => s)
      riNoSha "t" fsSample "OLD" "NEW" "u").1 rfl rfl rfl rfl,
   (c7_amended_remove_retry { idealEnv with removeFails1 := true, removeFails2 := true }
      (fun s => s) riNoSha "t" fsSample "OLD" "NEW" "u").2.1 rfl rfl rfl rfl rfl,
   ((c7_amended_remove_retry { idealEnv with
      removeFails1 := true
      removeFails2 := true
      remoteContent := "NEW" } (fun s => s) riNoSha "t" fsSample "OLD" "NEW" "u").2.2.1
      rfl rfl rfl rfl rfl rfl rfl rfl rfl rfl).1,
   ((c7_amended_remove_retry { idealEnv with
      removeFails1 := true
      removeFails2 := true
      remoteContent := "NEW" } (fun s => s) riNoSha "t" fsSample "OLD" "NEW" "u").2.2.1
      rfl rfl rfl rfl rfl rfl rfl rfl rfl rfl).2.1,
   (c7_amended_remove_retry { idealEnv with removeFails1 := true, removeFails2 := true }
      (fun s => s) riNoSha "t" fsSample "OLD" "NEW" "u").2.2.2 rfl rfl rfl rfl⟩

/-- Counterexample to C8 as stated: a successful Local install whose
release descriptor supplies an expected hash (as the local sidecar
`version.json` can) records the freshly computed digest (`"CC"`) of the
installed file, not the supplied hash (`"EXPECTED"`). -/
theorem c8_counterexample :
    (installFromLocal idealEnv (fun _ => "cc")
        ⟨some "2.0.0", some "u", some "EXPECTED", "22", ""⟩ "t" fsSample).1.versionFile
      = VFile.record "2.0.0" "CC" "local" "t" ∧
    (installFromLocal idealEnv (fun _ => "cc")
        ⟨some "2.0.0", some "u", some "EXPECTED", "22", ""⟩ "t" fsSample).2
      = PyR.ret true ∧
    ("CC" : String) ≠ "EXPECTED" := by
  exact ⟨by decide, by decide, by decide⟩

/-- C8 amended: every successful install overwrites the version record
wholesale with the new version string, the source kind and the (UTC)
installation timestamp; the `sha256` field is the expected hash when the
Remote source supplied a non-empty one (else the freshly computed digest
of the downloaded executable), but a Local install always records the
freshly computed digest of the installed executable, ignoring any hash
the local source supplied. -/
theorem c8_amended_version_record (env : Env) (h : String → String)
    (ri : RemoteInfo) (now : String) (fs : FS) (u s src : String) :
    (env.downloadFails = false → env.removeFails1 = false → env.moveFails = false →
      env.writeVersionFails = false → ri.download_url = some u →
      ri.sha256 = some s → s ≠ "" →
      calculate_sha256 h env.remoteContent = strUpper s →
      (installFromGithub env h ri now fs).1.versionFile
        = VFile.record (ri.version.getD "unknown") s "github" now ∧
      (installFromGithub env h ri now fs).2 = PyR.ret true) ∧
    (env.downloadFails = false → env.removeFails1 = false → env.moveFails = false →
      env.writeVersionFails = false → ri.download_url = some u → ri.sha256 = none →
      (installFromGithub env h ri now fs).1.versionFile
        = VFile.record (ri.version.getD "unknown")
            (calculate_sha256 h env.remoteContent) "github" now ∧
      (installFromGithub env h ri now fs).2 = PyR.ret true) ∧
    (env.removeFails1 = false → env.copyFails = false → env.writeVersionFails = false →
      fs.localSource = some src →
      (installFromLocal env h ri now fs).1.versionFile
        = VFile.record (ri.version.getD "unknown") (calculate_sha256 h src) "local" now ∧
      (installFromLocal env h ri now fs).2 = PyR.ret true) := by
  have hrem : ∀ g : FS, env.removeFails1 = false →
      githubRemoveStep env g = ({ g with appExe := none }, none) := by
    intro g h1
    cases hx : g.appExe with
    | none =>
      simp only [githubRemoveStep, hx]
      cases g
      simp_all
    | some c => simp only [githubRemoveStep, hx, h1, Bool.false_eq_true, if_false]
  refine ⟨?_, ?_, ?_⟩
  · intro hdl h1 hmv hwv hurl hsha hne hmatch
    have hts : strTruthy (some s) = true := by simp [strTruthy, hne]
    have hpy : pyOrStr (some s) (calculate_sha256 h env.remoteContent) = s := by
      simp [pyOrStr, hne]
    have hins : installFromGithub env h ri now fs
        = ({ fs with
              appExe := some env.remoteContent
              staged := none
              versionFile := VFile.record (ri.version.getD "unknown") s "github" now },
            PyR.ret true) := by
      simp only [installFromGithub, hurl, hdl, Bool.false_eq_true, if_false, hsha,
        Option.getD_some]
      rw [if_pos hts, if_neg (by simp [hmatch])]
      simp only [githubInstallTail, hrem _ h1, hmv, Bool.false_eq_true, if_false, hwv, hpy]
    rw [hins]
    exact ⟨rfl, rfl⟩
  · intro hdl h1 hmv hwv hurl hsha
    have hins : installFromGithub env h ri now fs
        = ({ fs with
              appExe := some env.remoteContent
              staged := none
              versionFile := VFile.record (ri.version.getD "unknown")
                (calculate_sha256 h env.remoteContent) "github" now }, PyR.ret true) := by
      simp only [installFromGithub, hurl, hdl, Bool.false_eq_true, if_false, hsha,
        strTruthy, githubInstallTail, hrem _ h1, hmv, hwv, pyOrStr]
    rw [hins]
    exact ⟨rfl, rfl⟩
  · intro h1 hcp hwv hls
    have hlrm : localRemoveStep env fs = ({ fs with appExe := none }, none) := by
      cases hx : fs.appExe with
      | none =>
        simp only [localRemoveStep, hx]
        cases fs
        simp_all
      | some c => simp only [localRemoveStep, hx, h1, Bool.false_eq_true, if_false]
    have hins : installFromLocal env h ri now fs
        = ({ fs with
              appExe := some src
              versionFile := VFile.record (ri.version.getD "unknown")
                (calculate_sha256 h src) "local" now }, PyR.ret true) := by
      simp only [installFromLocal, hls, hlrm, hcp, Bool.false_eq_true, if_false, hwv]
    rw [hins]
    exact ⟨rfl, rfl⟩

/-- Witness for C8 amended: the three branches at concrete inputs — a
matching supplied hash is recorded verbatim, a hashless remote release
records the computed digest, and a local install records the computed
digest. -/
theorem c8_witness :
    (installFromGithub { idealEnv with remoteContent := "NEW" } (fun _ => "ab")
        ⟨some "2.0.0", some "u", some "ab", "22", ""⟩ "t" fsSample).1.versionFile
      = VFile.record "2.0.0" "ab" "github" "t" ∧
    (installFromGithub { idealEnv with remoteContent := "NEW" } (fun _ => "ab")
        riNoSha "t" fsSample).1.versionFile
      = VFile.record "2.0.0" "AB" "github" "t" ∧
    (installFromLocal idealEnv (fun _ => "ab") riNoSha "t" fsSample).1.versionFile
      = VFile.record "2.0.0" "AB" "local" "t" :=
  ⟨((c8_amended_version_record { idealEnv with remoteContent := "NEW" } (fun _ => "ab")
      ⟨some "2.0.0", some "u", some "ab", "22", ""⟩ "t" fsSample "u" "ab" "NEW").1
      rfl rfl rfl rfl rfl rfl (by decide) (by decide)).1,
   ((c8_amended_version_record { idealEnv with remoteContent := "NEW" } (fun _ => "ab")
      riNoSha "t" fsSample "u" "ab" "NEW").2.1 rfl rfl rfl rfl rfl rfl).1,
   ((c8_amended_version_record idealEnv (fun _ => "ab") riNoSha "t" fsSample "u" "ab"
      "NEW").2.2 rfl rfl rfl rfl).1⟩

/-- Witness for C1 amended at concrete inputs: a failed download and a
hash mismatch leave the remote-installed binary untouched; a failed local
copy leaves the executable missing, and with the backup also failed the
whole procedure ends with it missing. -/
theorem c1_witness :
    ((installFromGithub { idealEnv with downloadFails := true } (fun s => s)
        riNoSha "t" fsSample).1.appExe = fsSample.appExe ∧
     (installFromGithub { idealEnv with downloadFails := true } (fun s => s)
        riNoSha "t" fsSample).1.versionFile = fsSample.versionFile) ∧
    installFromGithub { idealEnv with remoteContent := "NEW" } (fun _ => "cc")
        ⟨some "2.0.0", some "u", some "ab", "22", ""⟩ "t" fsSample
      = ({ fsSample with staged := none }, PyR.ret false) ∧
    installFromLocal { idealEnv with copyFails := true } (fun s => s)
        riNoSha "t" fsSample = ({ fsSample with appExe := none }, PyR.exn Exn.copy) ∧
    (downloadAndInstall true { idealEnv with
        copyFails := true
        binBackupFail := BackupFail.atCopy } (fun s => s) riNoSha false 3 "t"
        fsSample).1.appExe = none :=
  ⟨(c1_amended_removal_after_verification { idealEnv with downloadFails := true }
      (fun s => s) riNoSha "t" fsSample "u" "x" "NEW" 3).1 rfl rfl,
   (c1_amended_removal_after_verification { idealEnv with remoteContent := "NEW" }
      (fun _ => "cc") ⟨some "2.0.0", some "u", some "ab", "22", ""⟩ "t" fsSample
      "u" "ab" "NEW" 3).2.1 rfl rfl rfl (by decide) (by decide),
   (c1_amended_removal_after_verification { idealEnv with copyFails := true }
      (fun s => s) riNoSha "t" fsSample "u" "x" "NEW" 3).2.2.1 rfl rfl rfl rfl,
   (c1_amended_removal_after_verification { idealEnv with
      copyFails := true
      binBackupFail := BackupFail.atCopy }
      (fun s => s) riNoSha "t" fsSample "u" "x" "NEW" 3).2.2.2 rfl rfl rfl rfl rfl rfl⟩

theorem backup_current_len3 (env : Env) (e : Nat) (fs : FS)
    (hok : env.binBackupFail = BackupFail.ok)
    (hlen : fs.binBackups.length ≤ 3) :
    (backup_current env e fs).binBackups.length ≤ 3 := by
  obtain ⟨a, ao, v, st, bb, db, dbf, ls⟩ := fs
  cases a
  · exact hlen
  · simp only [backup_current, hok]
    exact rotateKeep_length_le 3 _

theorem backup_current_len3' (env : Env) (e : Nat) (fs : FS)
    (hok : env.binBackupFail = BackupFail.ok) (hex : fs.appExe.isSome = true) :
    (backup_current env e fs).binBackups.length ≤ 3 := by
  obtain ⟨a, ao, v, st, bb, db, dbf, ls⟩ := fs
  cases a
  · simp at hex
  · simp only [backup_current, hok]
    exact rotateKeep_length_le 3 _

theorem backup_database_len5 (env : Env) (e : Nat) (fs : FS)
    (hok : env.dbBackupFail = BackupFail.ok)
    (hlen : fs.dbBackups.length ≤ 5) :
    (backup_database env e fs).dbBackups.length ≤ 5 := by
  obtain ⟨a, ao, v, st, bb, db, dbf, ls⟩ := fs
  cases dbf
  · exact hlen
  · simp only [backup_database, hok]
    exact rotateKeep_length_le 5 _

theorem backup_database_len5' (env : Env) (e : Nat) (fs : FS)
    (hok : env.dbBackupFail = BackupFail.ok) (hex : fs.dbFile.isSome = true) :
    (backup_database env e fs).dbBackups.length ≤ 5 := by
  obtain ⟨a, ao, v, st, bb, db, dbf, ls⟩ := fs
  cases dbf
  · simp at hex
  · simp only [backup_database, hok]
    exact rotateKeep_length_le 5 _

theorem backup_current_rotate (env : Env) (e : Nat) (fs : FS) (c : String)
    (hc : fs.appExe = some c) (hok : env.binBackupFail = BackupFail.ok) :
    (backup_current env e fs).binBackups
      = rotateKeep 3 (putEntry fs.binBackups (backupName e) c) := by
  obtain ⟨a, ao, v, st, bb, db, dbf, ls⟩ := fs
  cases a with
  | none => exact absurd hc (by simp)
  | some val =>
    obtain rfl : val = c := Option.some.inj hc
    simp only [backup_current, hok]

theorem backup_current_rotateCut (env : Env) (e : Nat) (fs : FS) (c : String)
    (k : Nat) (hc : fs.appExe = some c)
    (hbf : env.binBackupFail = BackupFail.atRemove k) :
    (backup_current env e fs).binBackups
      = rotatePartial 3 k (putEntry fs.binBackups (backupName e) c) := by
  obtain ⟨a, ao, v, st, bb, db, dbf, ls⟩ := fs
  cases a with
  | none => exact absurd hc (by simp)
  | some val =>
    obtain rfl : val = c := Option.some.inj hc
    simp only [backup_current, hbf]

theorem backup_database_rotate (env : Env) (e : Nat) (fs : FS) (c : String)
    (hc : fs.dbFile = some c) (hok : env.dbBackupFail = BackupFail.ok) :
    (backup_database env e fs).dbBackups
      = rotateKeep 5 (putEntry fs.dbBackups (dbBackupName e) c) := by
  obtain ⟨a, ao, v, st, bb, db, dbf, ls⟩ := fs
  cases dbf with
  | none => exact absurd hc (by simp)
  | some val =>
    obtain rfl : val = c := Option.some.inj hc
    simp only [backup_database, hok]

theorem backup_database_rotateCut (env : Env) (e : Nat) (fs : FS) (c : String)
    (k : Nat) (hc : fs.dbFile = some c)
    (hbf : env.dbBackupFail = BackupFail.atRemove k) :
    (backup_database env e fs).dbBackups
      = rotatePartial 5 k (putEntry fs.dbBackups (dbBackupName e) c) := by
  obtain ⟨a, ao, v, st, bb, db, dbf, ls⟩ := fs
  cases dbf with
  | none => exact absurd hc (by simp)
  | some val =>
    obtain rfl : val = c := Option.some.inj hc
    simp only [backup_database, hbf]

theorem rotate_sorted_append (B : List (String × String)) (n c : String)
    (hpw : B.Pairwise entLE) (hlt : ∀ p ∈ B, nameLt p.1 n = true) :
    rotateKeep 3 (B ++ [(n, c)]) = (B ++ [(n, c)]).drop (B.length + 1 - 3) := by
  have hpw2 : (B ++ [(n, c)]).Pairwise entLE := by
    refine List.pairwise_append.2 ⟨hpw, List.pairwise_singleton _ _, ?_⟩
    intro a ha b hb
    rw [List.mem_singleton] at hb
    subst hb
    exact nameLt_le (hlt a ha)
  show (sortEntries (B ++ [(n, c)])).drop ((sortEntries (B ++ [(n, c)])).length - 3)
      = (B ++ [(n, c)]).drop (B.length + 1 - 3)
  rw [sortEntries_eq_of_sorted hpw2]
  simp

theorem stepUpdate_eq (hsh : String → String) (e : Nat) (cNew : String) (fs : FS)
    (c : String) (hex : fs.appExe = some c) (hdb : fs.dbFile = none)
    (hfresh : ∀ p ∈ fs.binBackups, p.1 ≠ backupName e) :
    (downloadAndInstall false (stepEnv cNew) hsh riPlain false e "t" fs).1
      = { fs with
          appExe := some cNew
          staged := none
          binBackups := rotateKeep 3 (fs.binBackups ++ [(backupName e, c)])
          versionFile := VFile.record "1.0.0" (calculate_sha256 hsh cNew) "github" "t" } := by
  obtain ⟨a, ao, v, st, bb, db, dbf, ls⟩ := fs
  obtain rfl : a = some c := hex
  obtain rfl : dbf = (none : Option String) := hdb
  have hput : putEntry bb (backupName e) c = bb ++ [(backupName e, c)] :=
    putEntry_of_not_mem hfresh
  simp only [downloadAndInstall, backupPhase, installDispatch, backup_current,
    backup_database, installFromGithub, githubInstallTail, githubRemoveStep,
    stepEnv, idealEnv, riPlain, strTruthy, pyOrStr, hput]
  simp

theorem runUpdates_names (hsh : String → String) :
    ∀ (steps : List (Nat × String)) (fs : FS) (c : String),
      fs.appExe = some c → fs.dbFile = none →
      (fs.binBackups.map Prod.fst).Pairwise (fun a b => nameLt a b = true) →
      fs.binBackups.length ≤ 3 →
      (∀ p ∈ fs.binBackups, ∀ st ∈ steps, nameLt p.1 (backupName st.1) = true) →
      (steps.map (fun st => backupName st.1)).Pairwise (fun a b => nameLt a b = true) →
      (runUpdates hsh steps fs).binBackups.map Prod.fst
        = lastCap 3 (fs.binBackups.map Prod.fst ++ steps.map (fun st => backupName st.1))
  | [], fs, c, hex, hdb, hpw, hlen, hfut, hspw => by
    show fs.binBackups.map Prod.fst = lastCap 3 (fs.binBackups.map Prod.fst ++ [])
    rw [List.append_nil, lastCap_of_length_le (by simpa using hlen)]
  | (e, cNew) :: rest, fs, c, hex, hdb, hpw, hlen, hfut, hspw => by
    rw [List.map_cons] at hspw
    have hfresh : ∀ p ∈ fs.binBackups, p.1 ≠ backupName e := fun p hp =>
      nameLt_ne (hfut p hp (e, cNew) (List.mem_cons_self _ _))
    have hlt : ∀ p ∈ fs.binBackups, nameLt p.1 (backupName e) = true := fun p hp =>
      hfut p hp (e, cNew) (List.mem_cons_self _ _)
    have hPWe : fs.binBackups.Pairwise entLE :=
      (List.pairwise_map.mp hpw).imp fun hab => nameLt_le hab
    have hstep := stepUpdate_eq hsh e cNew fs c hex hdb hfresh
    rw [rotate_sorted_append fs.binBackups (backupName e) c hPWe hlt] at hstep
    have hnames : (fs.binBackups.map Prod.fst ++ [backupName e]).Pairwise
        (fun a b => nameLt a b = true) := by
      refine List.pairwise_append.2 ⟨hpw, List.pairwise_singleton _ _, ?_⟩
      intro x hx y hy
      rw [List.mem_singleton] at hy
      subst hy
      obtain ⟨p, hp, rfl⟩ := List.mem_map.1 hx
      exact hlt p hp
    have hmapD : ((fs.binBackups ++ [(backupName e, c)]).drop
          (fs.binBackups.length + 1 - 3)).map Prod.fst
        = (fs.binBackups.map Prod.fst ++ [backupName e]).drop
            (fs.binBackups.length + 1 - 3) := by
      rw [List.map_drop, List.map_append]
      rfl
    have hpwD : (((fs.binBackups ++ [(backupName e, c)]).drop
          (fs.binBackups.length + 1 - 3)).map Prod.fst).Pairwise
        (fun a b => nameLt a b = true) := by
      rw [hmapD]
      exact List.Pairwise.sublist (List.drop_sublist _ _) hnames
    have hlenD : ((fs.binBackups ++ [(backupName e, c)]).drop
        (fs.binBackups.length + 1 - 3)).length ≤ 3 := by
      simp only [List.length_drop, List.length_append, List.length_singleton]
      omega
    have hfutD : ∀ p ∈ (fs.binBackups ++ [(backupName e, c)]).drop
        (fs.binBackups.length + 1 - 3), ∀ st ∈ rest,
        nameLt p.1 (backupName st.1) = true := by
      intro p hp st hst
      have hp2 : p ∈ fs.binBackups ++ [(backupName e, c)] :=
        (List.drop_sublist _ _).subset hp
      rcases List.mem_append.1 hp2 with hm | hm
      · exact hfut p hm st (List.mem_cons_of_mem _ hst)
      · rw [List.mem_singleton] at hm
        subst hm
        exact (List.pairwise_cons.1 hspw).1 (backupName st.1)
          (List.mem_map_of_mem _ hst)
    have hrpw := (List.pairwise_cons.1 hspw).2
    have hIH := runUpdates_names hsh rest
      { fs with
        appExe := some cNew
        staged := none
        binBackups := (fs.binBackups ++ [(backupName e, c)]).drop
          (fs.binBackups.length + 1 - 3)
        versionFile := VFile.record "1.0.0" (calculate_sha256 hsh cNew) "github" "t" }
      cNew rfl hdb hpwD hlenD hfutD hrpw
    have hr : runUpdates hsh ((e, cNew) :: rest) fs
        = runUpdates hsh rest
            ((downloadAndInstall false (stepEnv cNew) hsh riPlain false e "t" fs).1) := rfl
    rw [hr, hstep, hIH]
    dsimp only
    rw [hmapD]
    have hlast : (fs.binBackups.map Prod.fst ++ [backupName e]).drop
        (fs.binBackups.length + 1 - 3)
        = lastCap 3 (fs.binBackups.map Prod.fst ++ [backupName e]) := by
      simp only [lastCap, List.length_append, List.length_map, List.length_singleton]
    rw [hlast, lastCap_append_right, List.map_cons, List.append_assoc,
      List.singleton_append]

/-- State with a live database file, for data-backup instances. -/
def fsDb : FS := ⟨some "OLD", none, VFile.absent, none, [], [], some "D", none⟩

/-- Freshly installed state: binary present, no backups yet. -/
def fsFresh : FS := ⟨some "c0", none, VFile.absent, none, [], [], none, none⟩

/-- Four consecutive successful updates at increasing epochs. -/
def steps4 : List (Nat × String) :=
  [(1700000001, "c1"), (1700000002, "c2"), (1700000003, "c3"), (1700000004, "c4")]

/-- Installed state already holding three binary backups. -/
def fsThreeBackups : FS :=
  ⟨some "OLD", none, VFile.absent, none,
    [("ZocoPOS_backup_1700000000.exe", "a"), ("ZocoPOS_backup_1700000001.exe", "b"),
     ("ZocoPOS_backup_1700000002.exe", "d")], [], none, none⟩

/-- Installed state with five data backups and a live database file. -/
def fsFiveDbBackups : FS :=
  ⟨some "OLD", none, VFile.absent, none, [],
    [("zocopos_local_backup_1700000000.db", "a"), ("zocopos_local_backup_1700000001.db", "b"),
     ("zocopos_local_backup_1700000002.db", "d"), ("zocopos_local_backup_1700000003.db", "e"),
     ("zocopos_local_backup_1700000004.db", "f")], some "D", none⟩

/-- Counterexample to C4 as stated: the backup try-block's swallowed
exception can strike after `shutil.copy2` added the new entry and before
the rotation removed anything, so one call to the binary backup operation
leaves 4 binary backups (and one data-backup call leaves 6), exceeding the
claimed unconditional caps. -/
theorem c4_counterexample :
    (backup_current { idealEnv with binBackupFail := BackupFail.atRemove 0 }
        1700000003 fsThreeBackups).binBackups.length = 4 ∧
    fsThreeBackups.binBackups.length = 3 ∧
    (backup_database { idealEnv with dbBackupFail := BackupFail.atRemove 0 }
        1700000005 fsFiveDbBackups).dbBackups.length = 6 ∧
    fsFiveDbBackups.dbBackups.length = 5 := by
  exact ⟨by decide, rfl, by decide, rfl⟩

/-- C4 amended: after every call whose backup try-block completes without
an exception, at most 3 binary backups (5 data backups) remain; the
entries removed to enforce the bound — also by a rotation that a swallowed
exception cuts short — are always the oldest (smallest embedded-epoch
name) first; and after N > 3 consecutive fully successful updates whose
backup names increase with time, exactly 3 binary backups remain, the 3
most recently created.  When the swallowed exception strikes after the
copy but before the rotation finishes, the cap can be exceeded (see the
counterexample). -/
theorem c4_backup_rotation :
    (∀ (env : Env) (e : Nat) (fs : FS),
      (env.binBackupFail = BackupFail.ok → fs.binBackups.length ≤ 3 →
        (backup_current env e fs).binBackups.length ≤ 3) ∧
      (env.binBackupFail = BackupFail.ok → fs.appExe.isSome = true →
        (backup_current env e fs).binBackups.length ≤ 3) ∧
      (env.dbBackupFail = BackupFail.ok → fs.dbBackups.length ≤ 5 →
        (backup_database env e fs).dbBackups.length ≤ 5) ∧
      (env.dbBackupFail = BackupFail.ok → fs.dbFile.isSome = true →
        (backup_database env e fs).dbBackups.length ≤ 5)) ∧
    (∀ (env : Env) (e : Nat) (fs : FS) (c : String),
      fs.appExe = some c →
      (env.binBackupFail = BackupFail.ok ∨
        (∃ k, env.binBackupFail = BackupFail.atRemove k)) →
      ∀ p ∈ putEntry fs.binBackups (backupName e) c,
        p ∉ (backup_current env e fs).binBackups →
        ∀ q ∈ (backup_current env e fs).binBackups, entLE p q) ∧
    (∀ (env : Env) (e : Nat) (fs : FS) (c : String),
      fs.dbFile = some c →
      (env.dbBackupFail = BackupFail.ok ∨
        (∃ k, env.dbBackupFail = BackupFail.atRemove k)) →
      ∀ p ∈ putEntry fs.dbBackups (dbBackupName e) c,
        p ∉ (backup_database env e fs).dbBackups →
        ∀ q ∈ (backup_database env e fs).dbBackups, entLE p q) ∧
    (∀ (hsh : String → String) (steps : List (Nat × String)) (fs : FS) (c : String),
      fs.appExe = some c → fs.dbFile = none → fs.binBackups = [] →
      (steps.map (fun st => backupName st.1)).Pairwise (fun a b => nameLt a b = true) →
      3 < steps.length →
      (runUpdates hsh steps fs).binBackups.map Prod.fst
          = (steps.map (fun st => backupName st.1)).drop (steps.length - 3) ∧
      (runUpdates hsh steps fs).binBackups.length = 3) := by
  refine ⟨?_, ?_, ?_, ?_⟩
  · intro env e fs
    exact ⟨backup_current_len3 env e fs, backup_current_len3' env e fs,
      backup_database_len5 env e fs, backup_database_len5' env e fs⟩
  · intro env e fs c hc hmode p hp hnp q hq
    rcases hmode with hok | ⟨k, hk⟩
    · rw [backup_current_rotate env e fs c hc hok] at hnp hq
      exact rotateKeep_evicts hp hnp hq
    · rw [backup_current_rotateCut env e fs c k hc hk] at hnp hq
      exact rotatePartial_evicts hp hnp hq
  · intro env e fs c hc hmode p hp hnp q hq
    rcases hmode with hok | ⟨k, hk⟩
    · rw [backup_database_rotate env e fs c hc hok] at hnp hq
      exact rotateKeep_evicts hp hnp hq
    · rw [backup_database_rotateCut env e fs c k hc hk] at hnp hq
      exact rotatePartial_evicts hp hnp hq
  · intro hsh steps fs c hex hdb hbb hspw hN
    have h0pw : (fs.binBackups.map Prod.fst).Pairwise
        (fun a b => nameLt a b = true) := by
      rw [hbb]
      exact List.Pairwise.nil
    have h0len : fs.binBackups.length ≤ 3 := by
      rw [hbb]
      simp
    have h0fut : ∀ p ∈ fs.binBackups, ∀ st ∈ steps,
        nameLt p.1 (backupName st.1) = true := by
      rw [hbb]
      intro p hp
      simp at hp
    have hmain := runUpdates_names hsh steps fs c hex hdb h0pw h0len h0fut hspw
    rw [hbb] at hmain
    simp only [List.map_nil, List.nil_append] at hmain
    constructor
    · rw [hmain]
      simp only [lastCap, List.length_map]
    · have hl := congrArg List.length hmain
      rw [List.length_map, length_lastCap, List.length_map] at hl
      rw [hl, Nat.min_eq_left (le_of_lt hN)]

/-- Witness for C4 amended at concrete inputs: the caps hold after a
concrete fully successful binary and data backup, four consecutive updates
leave exactly the three most recent backups, and the eviction order is
exercised both for a completed rotation (evicted epoch 1700000000 vs
survivor 1700000003) and for one cut short after a single removal
(evicted epoch 1700000000 vs survivor 1700000001). -/
theorem c4_witness :
    (backup_current idealEnv 1700000003 fsOneBackup).binBackups.length ≤ 3 ∧
    (backup_database idealEnv 1700000003 fsDb).dbBackups.length ≤ 5 ∧
    (runUpdates (fun s => s) steps4 fsFresh).binBackups.map Prod.fst
      = (steps4.map (fun st => backupName st.1)).drop (steps4.length - 3) ∧
    (runUpdates (fun s => s) steps4 fsFresh).binBackups.length = 3 ∧
    entLE ("ZocoPOS_backup_1700000000.exe", "a")
      ("ZocoPOS_backup_1700000003.exe", "OLD") ∧
    entLE ("ZocoPOS_backup_1700000000.exe", "a")
      ("ZocoPOS_backup_1700000001.exe", "b") :=
  ⟨((c4_backup_rotation.1 idealEnv 1700000003 fsOneBackup).2.1 rfl rfl),
   ((c4_backup_rotation.1 idealEnv 1700000003 fsDb).2.2.2 rfl rfl),
   (c4_backup_rotation.2.2.2 (fun s => s) steps4 fsFresh "c0" rfl rfl rfl
      (by decide) (by decide)).1,
   (c4_backup_rotation.2.2.2 (fun s => s) steps4 fsFresh "c0" rfl rfl rfl
      (by decide) (by decide)).2,
   c4_backup_rotation.2.1 idealEnv 1700000003 fsThreeBackups "OLD" rfl (Or.inl rfl)
     ("ZocoPOS_backup_1700000000.exe", "a") (by decide) (by decide)
     ("ZocoPOS_backup_1700000003.exe", "OLD") (by decide),
   c4_backup_rotation.2.1 { idealEnv with binBackupFail := BackupFail.atRemove 1 }
     1700000003 fsThreeBackups "OLD" rfl (Or.inr ⟨1, rfl⟩)
     ("ZocoPOS_backup_1700000000.exe", "a") (by decide) (by decide)
     ("ZocoPOS_backup_1700000001.exe", "b") (by decide)⟩
